import Mathlib

/-!
A shallow embedding of the pumphouse-dashboard application (`app.py`): the
supplier-report parser, the DuckDB-backed fact store (`sales` and `stores`
tables), and the aggregation helpers, together with theorems settling the
specification claims about them.

Conventions of the embedding:
* Python strings are modelled as `List Char` (`PyStr`); Python `float`
  arithmetic is modelled over `ℚ` (the claims only exercise values that are
  exact in binary floating point).
* The DuckDB tables are modelled as Lean lists of typed rows; SQL `DELETE`
  is `List.filter`, SQL `INSERT` appends, and each `con.execute` call is an
  autocommitted statement (DuckDB statement-level atomicity).
* Fallible steps are modelled with explicit error flags rather than
  exceptions.
-/

/-- Python strings, modelled as lists of characters. -/
abbrev PyStr := List Char

/-- Lift a Lean string literal into the `PyStr` model. -/
def pyStrOf (s : String) : PyStr := s.data

/-- Python code-point lexicographic string comparison, as used by
`sorted(...)` in `parse_supplier_report` and by pandas `groupby` key
ordering. -/
def lexLeB : PyStr → PyStr → Bool
  | [], _ => true
  | _ :: _, [] => false
  | a :: as, b :: bs => if a < b then true else if b < a then false else lexLeB as bs

/-- Propositional form of `lexLeB`, for use with `List.insertionSort`. -/
def lexLe (a b : PyStr) : Prop := lexLeB a b = true

instance : DecidableRel lexLe := fun a b => inferInstanceAs (Decidable (lexLeB a b = true))

/-- Python `s.split()[0]` for a string whose first token is non-empty: drop
leading whitespace, then take the maximal run of non-whitespace characters
(`app.py` line 68, `c.split()[0]`). -/
def firstToken (c : PyStr) : PyStr :=
  (c.dropWhile Char.isWhitespace).takeWhile (fun ch => !ch.isWhitespace)

/-- The regex `^\d{3}\s+Qty Sold$` used at `app.py` line 65 to detect a
store's sold-quantity column. `\d` and `\s` are modelled as ASCII digit and
whitespace classes (the column names come from spreadsheet headers). -/
def soldColMatch (c : PyStr) : Bool :=
  (c.take 3).length == 3 && (c.take 3).all Char.isDigit &&
    !((c.drop 3).takeWhile Char.isWhitespace).isEmpty &&
    ((c.drop 3).dropWhile Char.isWhitespace) == pyStrOf "Qty Sold"

/-- The regex `^\d{3}\s+Qty On Hand$` used at `app.py` line 66; the detected
on-hand columns are not consumed by any downstream logic (reserved). -/
def onhandColMatch (c : PyStr) : Bool :=
  (c.take 3).length == 3 && (c.take 3).all Char.isDigit &&
    !((c.drop 3).takeWhile Char.isWhitespace).isEmpty &&
    ((c.drop 3).dropWhile Char.isWhitespace) == pyStrOf "Qty On Hand"

/-- A column name of the exact (single-space) form `"<3-digit code> Qty Sold"`,
i.e. the shape reconstructed by the f-string `f"{sc} Qty Sold"` at
`app.py` line 72. -/
def exactSoldCol (c : PyStr) : Bool :=
  (c.take 3).length == 3 && (c.take 3).all Char.isDigit &&
    c.drop 3 == pyStrOf " Qty Sold"

/-- Python `s.lower()` restricted to the ASCII range used by brand names and
the configured target substring. -/
def lowerP (s : PyStr) : PyStr := s.map Char.toLower

/-- Python substring containment `needle in hay`. -/
def substrIn (needle : PyStr) : PyStr → Bool
  | [] => List.isPrefixOf needle []
  | c :: t => List.isPrefixOf needle (c :: t) || substrIn needle t

/-- A Python cell value as seen by `convert_container_ml` (`app.py` lines
32-39): `num q` is a value `float(val)` successfully converts to the number
`q`, `raw s` is a value on which `float(val)` raises, with `s = str(val)`
its Python string form. -/
inductive PyVal where
  | num : ℚ → PyVal
  | raw : String → PyVal
deriving DecidableEq

/-- Python's built-in `round` to an integer: round half to even. -/
def roundHalfEven (q : ℚ) : ℤ :=
  if q - ⌊q⌋ < 1/2 then ⌊q⌋
  else if (1 : ℚ)/2 < q - ⌊q⌋ then ⌊q⌋ + 1
  else if ⌊q⌋ % 2 = 0 then ⌊q⌋ else ⌊q⌋ + 1

/-- `convert_container_ml` (`app.py` lines 32-39): a numeric container size
(a decimal fraction of liters) becomes `"<round(val*1000)> ml"`; any value
`float` cannot parse falls into the `except` branch and is returned as its
raw string form. -/
def convert_container_ml : PyVal → String
  | .num q => toString (roundHalfEven (q * 1000)) ++ " ml"
  | .raw s => s

/-- Round to two decimal places with Python/numpy half-to-even rounding, as
in `(...).round(2)` at `app.py` line 92. -/
def round2 (q : ℚ) : ℚ := (roundHalfEven (q * 100) : ℚ) / 100

/-- One data row of the "SUPPLIER REPORT" sheet restricted to the allow-list
of core descriptive columns (`base_cols`, `app.py` line 56). A column absent
from the file is modelled as an absent (`Option`) cell where downstream code
tolerates it; `containerSize` is the raw cell fed to `convert_container_ml`. -/
structure CoreRow where
  itemUPC : PyStr
  itemDescription : PyStr
  vendorName : PyStr
  className : PyStr
  containerSize : PyVal
  retailPrice : Option ℚ
  total : Option ℚ
  agent : Option ℚ
  grocery : Option ℚ
  licensee : Option ℚ
  otherCh : Option ℚ
  publicCh : Option ℚ
deriving DecidableEq

/-- One normalized long-format row produced by `parse_supplier_report`
(after the renames of `app.py` lines 84-89 and the stamping of lines
90-100). -/
structure FactRow where
  itemUPC : PyStr
  product : PyStr
  brand : PyStr
  className : PyStr
  container : String
  retailPrice : Option ℚ
  total : Option ℚ
  agent : Option ℚ
  grocery : Option ℚ
  licensee : Option ℚ
  otherCh : Option ℚ
  publicCh : Option ℚ
  storeCode : PyStr
  qtySold : ℚ
  dollars : Option ℚ
  fiscalYear : PyStr
  fiscalWeek : PyStr
  inventoryPullDate : Option PyStr
  soldDateRange : PyStr
deriving DecidableEq

/-- The input workbook as `parse_supplier_report` sees it after the two
`pd.read_excel` calls: the four fixed metadata cells (rows 0-3, column 1 of
the "SUPPLIER REPORT" sheet), the whitespace-stripped column names of the
data table whose header is row 4, the `core` slice of its rows, and the cell
contents of the per-store quantity columns (`qty col i` is the row-`i` cell
of column `col`, `none` for a blank/NaN cell). -/
structure Workbook where
  fiscalYear : PyStr
  fiscalWeek : PyStr
  inventoryPullDate : Option PyStr
  soldDateRange : PyStr
  columns : List PyStr
  core : List CoreRow
  qty : PyStr → Nat → Option ℚ

/-- Build one output row for store `sc` from core row `c` at row index `i`:
the body of the per-store loop at `app.py` lines 71-78 followed by the
renames, the `Dollars` computation and the metadata stamping of lines
84-100. A blank quantity cell defaults to `0` (`fillna(0)`). -/
def mkFact (w : Workbook) (sc : PyStr) (i : Nat) (c : CoreRow) : FactRow :=
  let q : ℚ := (w.qty (sc ++ pyStrOf " Qty Sold") i).getD 0
  { itemUPC := c.itemUPC
    product := c.itemDescription
    brand := c.vendorName
    className := c.className
    container := convert_container_ml c.containerSize
    retailPrice := c.retailPrice
    total := c.total
    agent := c.agent
    grocery := c.grocery
    licensee := c.licensee
    otherCh := c.otherCh
    publicCh := c.publicCh
    storeCode := sc
    qtySold := q
    dollars := c.retailPrice.map (fun p => round2 (q * p))
    fiscalYear := w.fiscalYear
    fiscalWeek := w.fiscalWeek
    inventoryPullDate := w.inventoryPullDate
    soldDateRange := w.soldDateRange }

/-- `parse_supplier_report` (`app.py` lines 41-101), from the point where the
workbook has been read: detect the store sold-quantity columns by the regex,
collect the sorted distinct store codes, and for each code whose exact
`"<code> Qty Sold"` column exists emit one copy of the core rows stamped with
that code and quantity; with no frames the result is the empty table. -/
def parse_supplier_report (w : Workbook) : List FactRow :=
  let sold_cols := w.columns.filter soldColMatch
  let store_codes := List.insertionSort lexLe ((sold_cols.map firstToken).dedup)
  let long_frames := (store_codes.filter
      (fun sc => decide ((sc ++ pyStrOf " Qty Sold") ∈ w.columns))).map
    (fun sc => w.core.enum.map (fun p => mkFact w sc p.1 p.2))
  if long_frames.isEmpty then [] else long_frames.flatten

/-- A persisted row of the `sales` table (`app.py` lines 108-129). The
embedding identifies the ingested DataFrame's columns with this schema, as
the Fact Store contract does (`INSERT INTO sales SELECT * FROM df` is
positional in DuckDB, so a schema-aligned frame is assumed). -/
structure SalesRow where
  fiscalYear : String
  fiscalWeek : String
  inventoryPullDate : Option String
  soldDateRange : String
  brand : String
  product : String
  className : String
  container : String
  retailPrice : Option ℚ
  total : Option ℚ
  agent : Option ℚ
  grocery : Option ℚ
  licensee : Option ℚ
  otherCh : Option ℚ
  publicCh : Option ℚ
  storeCode : String
  qtySold : ℚ
  dollars : Option ℚ
deriving DecidableEq

/-- The natural key of a sales fact: (FiscalYear, FiscalWeek, Product,
StoreCode), as selected at `app.py` line 147. -/
def salesKey (r : SalesRow) : String × String × String × String :=
  (r.fiscalYear, r.fiscalWeek, r.product, r.storeCode)

/-- One `DELETE FROM sales WHERE FiscalYear=? AND FiscalWeek=? AND Product=?
AND StoreCode=?` statement (`app.py` lines 149-150). -/
def delete_key (sales : List SalesRow) (k : String × String × String × String) :
    List SalesRow :=
  sales.filter (fun r => decide (salesKey r ≠ k))

/-- `upsert_sales` (`app.py` lines 142-152): an empty frame returns 0 without
touching the table; otherwise the distinct natural keys of the batch are
collected (`drop_duplicates`), one delete statement runs per key, and the
whole batch is appended (`INSERT INTO sales SELECT * FROM df`). Returns the
new table and the reported row count `len(df)`. -/
def upsert_sales (sales : List SalesRow) (df : List SalesRow) :
    List SalesRow × Nat :=
  if df.isEmpty then (sales, 0)
  else
    let keys := (df.map salesKey).dedup
    let afterDelete := keys.foldl delete_key sales
    (afterDelete ++ df, df.length)

/-- The `sales` table after a sequence of `upsert_sales` calls starting from
an empty table. -/
def upsertedState (batches : List (List SalesRow)) : List SalesRow :=
  batches.foldl (fun s df => (upsert_sales s df).1) []

/-- Number of persisted rows carrying natural key `k`. -/
def countKey (k : String × String × String × String) (s : List SalesRow) : Nat :=
  (s.filter (fun r => decide (salesKey r = k))).length

/-- A persisted row of the `stores` reference table (`app.py` lines
130-140); `StoreCode` is the primary key. -/
structure StoreRow where
  storeCode : String
  storeName : Option String
  address : Option String
  city : Option String
  province : Option String
  lat : Option ℚ
  lon : Option ℚ
deriving DecidableEq

/-- One row of the `load_data` result: `SELECT s.*, st.StoreName, st.City,
st.Province, st.Lat, st.Lon` (`app.py` lines 158-162; `st.Address` is not
selected). -/
structure LoadedRow where
  sale : SalesRow
  storeName : Option String
  city : Option String
  province : Option String
  lat : Option ℚ
  lon : Option ℚ
deriving DecidableEq

/-- `load_data` (`app.py` lines 157-163): every sales fact `LEFT JOIN`ed
with the stores table on StoreCode — each fact is paired with every matching
store row, or with all-null location fields when no store matches. -/
def load_data (sales : List SalesRow) (stores : List StoreRow) : List LoadedRow :=
  sales.flatMap (fun s =>
    match stores.filter (fun st => st.storeCode == s.storeCode) with
    | [] => [⟨s, none, none, none, none, none⟩]
    | st :: sts => (st :: sts).map (fun t => ⟨s, t.storeName, t.city, t.province, t.lat, t.lon⟩))

/-- Python `s.zfill(3)` as applied by `sdf["StoreCode"].str.zfill(3)`
(`app.py` line 310): left-pad with `'0'` to width 3, keeping a leading sign
character in front of the padding. -/
def zfill3 (s : String) : String :=
  let p : PyStr := s.data
  let sign : PyStr := match p with
    | c :: _ => if c = '+' ∨ c = '-' then [c] else []
    | [] => []
  let rest : PyStr := p.drop sign.length
  String.mk (sign ++ List.replicate (3 - p.length) '0' ++ rest)

/-- Normalization applied to each uploaded store row before storage. -/
def normalizeStore (r : StoreRow) : StoreRow :=
  { r with storeCode := zfill3 r.storeCode }

/-- A database statement issued by the store-directory upload handler. -/
inductive DbOp where
  | deleteAllStores
  | insertStores (rows : List StoreRow)
deriving DecidableEq

/-- Execute one autocommitted statement against the `stores` table,
returning the new table and an error flag. `DELETE FROM stores` empties the
table; `INSERT INTO stores SELECT * FROM sdf` appends the rows, or fails
wholesale on a primary-key violation (DuckDB statement-level atomicity)
leaving the table as it was when the statement started. -/
def applyOp (db : List StoreRow) : DbOp → List StoreRow × Bool
  | .deleteAllStores => ([], false)
  | .insertStores rows =>
    if ((db ++ rows).map StoreRow.storeCode).Nodup then (db ++ rows, false)
    else (db, true)

/-- Run statements in order; a raised error propagates, so later statements
do not execute. -/
def runOps : List StoreRow → List DbOp → List StoreRow × Bool
  | db, [] => (db, false)
  | db, op :: rest =>
    let r := applyOp db op
    if r.2 then (r.1, true) else runOps r.1 rest

/-- Outcome of `pd.read_csv` plus the `.str.zfill(3)` normalization line:
`failure` models an exception raised there (malformed CSV or missing
`StoreCode` column), before any database statement; `rows rs` is a
successfully read frame. -/
inductive CsvRead where
  | failure
  | rows (rs : List StoreRow)

/-- The database statements the store-directory upload handler issues for a
given CSV outcome (`app.py` lines 308-313): nothing on a read/normalize
error, otherwise delete-all followed by the insert of the normalized rows. -/
def stores_upload_ops : CsvRead → List DbOp
  | .failure => []
  | .rows rs => [.deleteAllStores, .insertStores (rs.map normalizeStore)]

/-- The store-directory upload handler (`app.py` lines 308-313): on a
read/normalize failure the exception surfaces with the table untouched;
otherwise the delete-all and insert statements run in order. -/
def stores_upload (stores : List StoreRow) : CsvRead → List StoreRow × Bool
  | .failure => (stores, true)
  | .rows rs => runOps stores (stores_upload_ops (.rows rs))

/-- A fact row as consumed by `compute_top_comp_brands`: its `Brand` and
(possibly null) `Dollars` columns. -/
structure BrandFact where
  brand : PyStr
  dollars : Option ℚ
deriving DecidableEq

/-- Total `Dollars` for one brand: pandas `groupby("Brand")["Dollars"].sum()`
sums the non-null values of the group (`skipna`), an all-null group summing
to 0. -/
def brandTotal (df : List BrandFact) (b : PyStr) : ℚ :=
  ((df.filter (fun f => f.brand == b)).filterMap BrandFact.dollars).sum

/-- Comparison used to rank brand totals in descending `Dollars` order. -/
def dollarGE (x y : PyStr × ℚ) : Prop := x.2 ≥ y.2

instance : DecidableRel dollarGE := fun x y => inferInstanceAs (Decidable (x.2 ≥ y.2))

instance : IsTotal (PyStr × ℚ) dollarGE := ⟨fun a b => le_total b.2 a.2⟩

instance : IsTrans (PyStr × ℚ) dollarGE := ⟨fun _ _ _ h₁ h₂ => le_trans h₂ h₁⟩

/-- The per-brand totals table of `compute_top_comp_brands` (`app.py` line
167): group by brand (pandas emits group keys in sorted order) and sort by
total descending. pandas' default quicksort leaves the relative order of
equal totals unspecified; the embedding fixes the stable order. -/
def rankedTotals (df : List BrandFact) : List (PyStr × ℚ) :=
  let keys := List.insertionSort lexLe ((df.map BrandFact.brand).dedup)
  List.insertionSort dollarGE (keys.map (fun b => (b, brandTotal df b)))

/-- The ranked brand names, `t["Brand"].tolist()` (`app.py` line 169). -/
def rankedBrands (df : List BrandFact) : List PyStr :=
  (rankedTotals df).map Prod.fst

/-- The brands whose lowercased name contains the lowercased target
substring, in rank order (`app.py` line 170). -/
def pumpMatches (df : List BrandFact) (pump_house_name : PyStr) : List PyStr :=
  (rankedBrands df).filter (fun b => substrIn (lowerP pump_house_name) (lowerP b))

/-- `compute_top_comp_brands` (`app.py` lines 165-174): the first matching
brand (or, with no match, the single top-ranked brand) is forced first,
followed by the next five distinct brands in rank order excluding the forced
ones. -/
def compute_top_comp_brands (df : List BrandFact)
    (pump_house_name : PyStr := pyStrOf "Pump House") : List PyStr :=
  let brands := rankedBrands df
  let pump0 := pumpMatches df pump_house_name
  let pump := if pump0.isEmpty then brands.take 1 else pump0.take 1
  let others := (brands.filter (fun b => decide (b ∉ pump))).take 5
  pump ++ others

/-! ### Concrete rows used by witnesses and counterexamples -/

/-- A sample persisted fact row. -/
def rowA : SalesRow :=
  { fiscalYear := "2024", fiscalWeek := "W01", inventoryPullDate := none,
    soldDateRange := "Jun 1 - Jun 7", brand := "Pump House", product := "IPA",
    className := "Beer", container := "355 ml", retailPrice := none,
    total := none, agent := none, grocery := none, licensee := none,
    otherCh := none, publicCh := none, storeCode := "001", qtySold := 1,
    dollars := none }

/-- A second row carrying the same natural key as `rowA`. -/
def rowA2 : SalesRow := { rowA with qtySold := 2 }

/-- A row under a different fiscal week (a distinct natural key). -/
def rowB : SalesRow := { rowA with fiscalWeek := "W02", qtySold := 3 }

/-! ### Claim C7 -/

/-- The joined row for a fact `s` and a matching store row `t`. -/
def mkLoaded (s : SalesRow) (t : StoreRow) : LoadedRow :=
  ⟨s, t.storeName, t.city, t.province, t.lat, t.lon⟩

/-- A sample store-directory row matching `rowA`'s store code. -/
def store001 : StoreRow :=
  { storeCode := "001", storeName := some "Main Depot", address := some "1 Main St",
    city := some "Moncton", province := some "NB", lat := some 46, lon := some (-64) }

/-- A persisted fact row whose store code has no directory entry. -/
def rowOrphan : SalesRow := { rowA with storeCode := "999" }

/-- A sample raw store-directory row with an unpadded store code. -/
def rawStore2 : StoreRow :=
  { storeCode := "2", storeName := some "North Depot", address := none,
    city := some "Dieppe", province := some "NB", lat := none, lon := none }

/-- A store-directory CSV row duplicating the code `"001"`. -/
def dupStoreX : StoreRow :=
  { storeCode := "001", storeName := some "X", address := none,
    city := none, province := none, lat := none, lon := none }

/-- A second CSV row with the same store code as `dupStoreX`. -/
def dupStoreY : StoreRow := { dupStoreX with storeName := some "Y" }

/-- The brand-share example of the spec: brands A ($100), PumpHouse ($50),
B ($30), C ($10). -/
def brandExample : List BrandFact :=
  [⟨pyStrOf "A", some 100⟩, ⟨pyStrOf "PumpHouse", some 50⟩,
   ⟨pyStrOf "B", some 30⟩, ⟨pyStrOf "C", some 10⟩]

/-- A fact collection in which two brand names contain the target. -/
def brandExample2 : List BrandFact :=
  [⟨pyStrOf "Pump House A", some 100⟩, ⟨pyStrOf "Pump House B", some 90⟩,
   ⟨pyStrOf "X", some 80⟩]

/-- The `sold_cols` local of `parse_supplier_report` (`app.py` line 65). -/
def soldCols (w : Workbook) : List PyStr := w.columns.filter soldColMatch

/-- The `store_codes` local (`app.py` line 68): sorted distinct first tokens
of the detected sold columns. -/
def storeCodes (w : Workbook) : List PyStr :=
  List.insertionSort lexLe ((soldCols w).map firstToken).dedup

/-- The store codes whose reconstructed `"<sc> Qty Sold"` column exists,
i.e. the codes not skipped by the `continue` at `app.py` lines 73-74. -/
def inclCodes (w : Workbook) : List PyStr :=
  (storeCodes w).filter (fun sc => decide ((sc ++ pyStrOf " Qty Sold") ∈ w.columns))

/-- The per-store long frame built by one iteration of the loop at
`app.py` lines 71-78. -/
def storeFrame (w : Workbook) (sc : PyStr) : List FactRow :=
  w.core.enum.map (fun p => mkFact w sc p.1 p.2)

/-- The distinct 3-digit store codes that own an exact-form
`"<code> Qty Sold"` column — the claim-side count `N`. -/
def exactCodes (cols : List PyStr) : List PyStr :=
  ((cols.filter exactSoldCol).map (fun c => c.take 3)).dedup

/-- A sample core data row of the supplier report. -/
def coreRow1 : CoreRow :=
  { itemUPC := pyStrOf "062067000015", itemDescription := pyStrOf "IPA 473",
    vendorName := pyStrOf "Pump House", className := pyStrOf "Beer",
    containerSize := PyVal.raw "473 ml cell", retailPrice := none,
    total := none, agent := none, grocery := none, licensee := none,
    otherCh := none, publicCh := none }

/-- A second sample core data row. -/
def coreRow2 : CoreRow := { coreRow1 with itemDescription := pyStrOf "Lager 473" }

/-- A workbook with two store-quantity columns ("002", "007") and two core
rows; one quantity cell is blank. -/
def exampleWorkbook : Workbook :=
  { fiscalYear := pyStrOf "2024", fiscalWeek := pyStrOf "W01",
    inventoryPullDate := some (pyStrOf "2024-06-08"),
    soldDateRange := pyStrOf "Jun 1 - Jun 7",
    columns := [pyStrOf "Item Description", pyStrOf "002 Qty Sold",
      pyStrOf "007 Qty Sold", pyStrOf "002 Qty On Hand"],
    core := [coreRow1, coreRow2],
    qty := fun col i =>
      if col = pyStrOf "002 Qty Sold" then (if i = 0 then some 5 else none)
      else if col = pyStrOf "007 Qty Sold" then some 2 else none }

/-- A workbook whose columns contain no store-quantity pattern at all. -/
def noStoreWorkbook : Workbook :=
  { exampleWorkbook with
    columns := [pyStrOf "Item Description", pyStrOf "Retail Price"] }

/-! ### Helper lemmas about `upsert_sales` -/

theorem delete_key_foldl (keys : List (String × String × String × String)) :
    ∀ s : List SalesRow,
      keys.foldl delete_key s = s.filter (fun r => decide (salesKey r ∉ keys)) := by
  induction keys with
  | nil => intro s; simp
  | cons k ks ih =>
    intro s
    rw [List.foldl_cons, ih, delete_key, List.filter_filter]
    refine List.filter_congr ?_
    intro r _
    simp [not_or, Bool.and_comm]

theorem upsert_sales_eq (s df : List SalesRow) :
    upsert_sales s df
      = (s.filter (fun r => decide (salesKey r ∉ df.map salesKey)) ++ df, df.length) := by
  unfold upsert_sales
  by_cases h : df.isEmpty
  · rw [if_pos h]
    rw [List.isEmpty_iff] at h
    subst h
    simp
  · rw [if_neg h]
    show (((df.map salesKey).dedup).foldl delete_key s ++ df, df.length) = _
    rw [delete_key_foldl]
    refine congrArg (fun l => (l ++ df, df.length)) ?_
    refine List.filter_congr ?_
    intro r _
    simp [List.mem_dedup]

theorem filter_key_of_deleted {k : String × String × String × String}
    {K : List (String × String × String × String)} (s : List SalesRow) (hk : k ∈ K) :
    (s.filter (fun r => decide (salesKey r ∉ K))).filter
        (fun r => decide (salesKey r = k)) = [] := by
  rw [List.filter_eq_nil_iff]
  intro r hr
  have h2 := (List.mem_filter.mp hr).2
  simp only [decide_eq_true_eq] at h2 ⊢
  intro hkey
  exact h2 (hkey ▸ hk)

theorem countKey_append (k : String × String × String × String)
    (a b : List SalesRow) : countKey k (a ++ b) = countKey k a + countKey k b := by
  simp [countKey, List.filter_append]

theorem countKey_eq_zero {df : List SalesRow} {k : String × String × String × String}
    (h : k ∉ df.map salesKey) : countKey k df = 0 := by
  unfold countKey
  rw [List.length_eq_zero, List.filter_eq_nil_iff]
  intro r hr
  simp only [decide_eq_true_eq]
  intro hkey
  exact h (hkey ▸ List.mem_map_of_mem salesKey hr)

theorem countKey_le_one_of_nodup {df : List SalesRow}
    (h : (df.map salesKey).Nodup) (k : String × String × String × String) :
    countKey k df ≤ 1 := by
  induction df with
  | nil => simp [countKey]
  | cons r t ih =>
    rw [List.map_cons, List.nodup_cons] at h
    obtain ⟨hnot, ht⟩ := h
    by_cases hk : salesKey r = k
    · have hzero : countKey k t = 0 := countKey_eq_zero (hk ▸ hnot)
      unfold countKey at hzero ⊢
      rw [List.filter_cons]
      simp [hk, hzero]
    · have ht1 := ih ht
      unfold countKey at ht1 ⊢
      rw [List.filter_cons]
      simpa [hk] using ht1

theorem countKey_filter_le (p : SalesRow → Bool) (s : List SalesRow)
    (k : String × String × String × String) : countKey k (s.filter p) ≤ countKey k s :=
  List.Sublist.length_le (List.Sublist.filter _ (List.filter_sublist s))

theorem upsert_preserves_inv (s df : List SalesRow)
    (hdf : (df.map salesKey).Nodup) (hs : ∀ k, countKey k s ≤ 1) :
    ∀ k, countKey k (upsert_sales s df).1 ≤ 1 := by
  intro k
  rw [upsert_sales_eq]
  simp only
  rw [countKey_append]
  by_cases hk : k ∈ df.map salesKey
  · have h0 : countKey k (s.filter (fun r => decide (salesKey r ∉ df.map salesKey))) = 0 := by
      unfold countKey
      rw [filter_key_of_deleted s hk]
      rfl
    rw [h0]
    simpa using countKey_le_one_of_nodup hdf k
  · rw [countKey_eq_zero hk]
    have := countKey_filter_le (fun r => decide (salesKey r ∉ df.map salesKey)) s k
    have := hs k
    omega

theorem upsertedState_inv (batches : List (List SalesRow))
    (h : ∀ df ∈ batches, (df.map salesKey).Nodup) :
    ∀ k, countKey k (upsertedState batches) ≤ 1 := by
  unfold upsertedState
  have H : ∀ s : List SalesRow, (∀ k, countKey k s ≤ 1) →
      ∀ k, countKey k (batches.foldl (fun s df => (upsert_sales s df).1) s) ≤ 1 := by
    induction batches with
    | nil => intro s hs; simpa using hs
    | cons df bs ih =>
      intro s hs
      rw [List.foldl_cons]
      refine ih (fun d hd => h d (List.mem_cons_of_mem df hd)) _ ?_
      exact upsert_preserves_inv s df (h df (List.mem_cons_self df bs)) hs
  exact H [] (by intro k; simp [countKey])

/-! ### Claims C1, C2, C4 -/

/-- C1 (amended): provided every batch passed to `upsert_sales` contains at
most one row per natural key, then starting from an empty `sales` table at
most one persisted row exists per natural key after any sequence of upserts;
and re-ingesting a batch covering an already-persisted key still replaces
the prior rows for that key wholesale (the rows persisted under a covered
key are exactly the batch's rows for that key). -/
theorem upsert_natural_key_invariant (batches : List (List SalesRow))
    (h : ∀ df ∈ batches, (df.map salesKey).Nodup) :
    (∀ k, countKey k (upsertedState batches) ≤ 1)
    ∧ ∀ (s df : List SalesRow) (k : String × String × String × String),
        k ∈ df.map salesKey →
        (upsert_sales s df).1.filter (fun r => decide (salesKey r = k))
          = df.filter (fun r => decide (salesKey r = k)) := by
  refine ⟨upsertedState_inv batches h, ?_⟩
  intro s df k hk
  rw [upsert_sales_eq]
  simp only
  rw [List.filter_append, filter_key_of_deleted s hk, List.nil_append]

/-- C1 counterexample: the claim as stated fails on a single batch holding
two rows with the same natural key — both rows are persisted, so two fact
rows exist under one key. -/
theorem upsert_natural_key_invariant_cex :
    countKey ("2024", "W01", "IPA", "001") (upsertedState [[rowA, rowA2]]) = 2 := by
  decide

/-- Witness instantiating the amended C1 at a concrete two-batch history. -/
theorem upsert_natural_key_invariant_witness :
    countKey ("2024", "W01", "IPA", "001") (upsertedState [[rowA], [rowA2, rowB]]) ≤ 1
    ∧ (upsert_sales [rowA] [rowA2]).1.filter
          (fun r => decide (salesKey r = ("2024", "W01", "IPA", "001")))
        = [rowA2].filter (fun r => decide (salesKey r = ("2024", "W01", "IPA", "001"))) := by
  have T := upsert_natural_key_invariant [[rowA], [rowA2, rowB]] (by decide)
  exact ⟨T.1 _, T.2 [rowA] [rowA2] _ (by decide)⟩

/-- C2: `upsert_sales` deletes exactly the persisted rows whose natural key
equals one of the distinct keys occurring in the batch (rows under every
other key are kept, in order), then appends every row of the batch, and
returns the batch length; the empty batch performs no deletes and no
inserts and returns 0. -/
theorem upsert_sales_delete_insert_spec (s df : List SalesRow) :
    upsert_sales s df
        = (s.filter (fun r => decide (salesKey r ∉ df.map salesKey)) ++ df, df.length)
      ∧ upsert_sales s [] = (s, 0) := by
  refine ⟨upsert_sales_eq s df, ?_⟩
  rw [upsert_sales_eq]
  simp

/-- C4: `upsert_sales` is idempotent on the persisted state — re-upserting
the identical batch leaves the table (hence also its row count) exactly as
after the first call, because the second call deletes and re-inserts the
same key slice. -/
theorem upsert_sales_idempotent (s df : List SalesRow) :
    (upsert_sales (upsert_sales s df).1 df).1 = (upsert_sales s df).1 := by
  rw [upsert_sales_eq s df, upsert_sales_eq]
  simp only
  rw [List.filter_append]
  have hdf : df.filter (fun r => decide (salesKey r ∉ df.map salesKey)) = [] := by
    rw [List.filter_eq_nil_iff]
    intro r hr
    simp only [decide_eq_true_eq, not_not]
    exact List.mem_map_of_mem salesKey hr
  have hff : (s.filter (fun r => decide (salesKey r ∉ df.map salesKey))).filter
      (fun r => decide (salesKey r ∉ df.map salesKey))
      = s.filter (fun r => decide (salesKey r ∉ df.map salesKey)) := by
    rw [List.filter_filter]
    refine List.filter_congr ?_
    intro r _
    rw [Bool.and_self]
  rw [hdf, hff, List.append_nil]

/-! ### Claim C6 -/

theorem roundHalfEven_nearest (x : ℚ) : |(roundHalfEven x : ℚ) - x| ≤ 1/2 := by
  have h1 : (⌊x⌋ : ℚ) ≤ x := Int.floor_le x
  have h2 : x < ⌊x⌋ + 1 := Int.lt_floor_add_one x
  unfold roundHalfEven
  split_ifs with ha hb hc
  · rw [abs_le]; constructor <;> push_cast <;> linarith
  · rw [abs_le]; constructor <;> push_cast <;> linarith
  · rw [not_lt] at ha hb
    rw [abs_le]; constructor <;> push_cast <;> linarith
  · rw [not_lt] at ha hb
    rw [abs_le]; constructor <;> push_cast <;> linarith

unseal Rat.mul Rat.add Rat.sub Rat.inv Rat.ofScientific in
/-- C6: for a numeric container-size value `q` (a decimal fraction of
liters), `convert_container_ml` renders `"<N> ml"` where `N` is a nearest
integer to `q * 1000` (Python `round`, half-to-even, is within 1/2 of the
exact product); `convert_container_ml 0.3750 = "375 ml"`; every value
`float` cannot parse passes through as its raw string form without raising,
in particular `convert_container_ml "garbage" = "garbage"`. -/
theorem convert_container_ml_spec :
    (∀ q : ℚ, convert_container_ml (PyVal.num q)
          = toString (roundHalfEven (q * 1000)) ++ " ml"
        ∧ |(roundHalfEven (q * 1000) : ℚ) - q * 1000| ≤ 1/2)
    ∧ (∀ s : String, convert_container_ml (PyVal.raw s) = s)
    ∧ convert_container_ml (PyVal.num (0.3750 : ℚ)) = "375 ml"
    ∧ convert_container_ml (PyVal.raw "garbage") = "garbage" :=
  ⟨fun q => ⟨rfl, roundHalfEven_nearest (q * 1000)⟩, fun _ => rfl,
    by decide, rfl⟩

theorem stores_filter_eq_find (stores : List StoreRow) (c : String)
    (h : (stores.map StoreRow.storeCode).Nodup) :
    stores.filter (fun st => st.storeCode == c)
      = match stores.find? (fun st => st.storeCode == c) with
        | some t => [t]
        | none => [] := by
  induction stores with
  | nil => rfl
  | cons st rest ih =>
    rw [List.map_cons, List.nodup_cons] at h
    obtain ⟨hnot, hrest⟩ := h
    by_cases hc : (st.storeCode == c) = true
    · have hnil : rest.filter (fun t => t.storeCode == c) = [] := by
        rw [List.filter_eq_nil_iff]
        intro t ht hbeq
        refine hnot ?_
        rw [eq_of_beq hc, ← eq_of_beq hbeq]
        exact List.mem_map_of_mem StoreRow.storeCode ht
      have hfind : List.find? (fun t => t.storeCode == c) (st :: rest) = some st :=
        List.find?_cons_of_pos rest hc
      rw [List.filter_cons, hfind]
      simp [hc, hnil]
    · have hfind : List.find? (fun t => t.storeCode == c) (st :: rest)
          = List.find? (fun t => t.storeCode == c) rest :=
        List.find?_cons_of_neg rest (by simpa using hc)
      rw [List.filter_cons, hfind, ih hrest]
      simp [hc]

/-- C7: under the `stores` primary key (no duplicate StoreCode), `load_data`
returns every persisted sales fact exactly once, in order, left-joined with
the store directory: a fact whose StoreCode matches a store row carries that
row's StoreName/City/Province/Lat/Lon, and a fact with no matching store
row still appears, with all five location fields null. -/
theorem load_data_left_join (sales : List SalesRow) (stores : List StoreRow)
    (hpk : (stores.map StoreRow.storeCode).Nodup) :
    load_data sales stores
        = sales.map (fun s =>
            match stores.find? (fun st => st.storeCode == s.storeCode) with
            | some t => mkLoaded s t
            | none => ⟨s, none, none, none, none, none⟩)
      ∧ (load_data sales stores).map LoadedRow.sale = sales := by
  have hmain : load_data sales stores
      = sales.map (fun s =>
          match stores.find? (fun st => st.storeCode == s.storeCode) with
          | some t => mkLoaded s t
          | none => ⟨s, none, none, none, none, none⟩) := by
    induction sales with
    | nil => rfl
    | cons s rest ih =>
      unfold load_data at ih ⊢
      rw [List.flatMap_cons, List.map_cons, ih]
      rw [stores_filter_eq_find stores s.storeCode hpk]
      cases hfind : stores.find? (fun st => st.storeCode == s.storeCode) with
      | none => rfl
      | some t => rfl
  refine ⟨hmain, ?_⟩
  rw [hmain, List.map_map]
  conv_rhs => rw [← List.map_id sales]
  refine List.map_congr_left ?_
  intro s _
  simp only [Function.comp_apply, id]
  cases stores.find? (fun st => st.storeCode == s.storeCode) with
  | none => rfl
  | some t => rfl

/-- Witness instantiating C7: one matched fact, one orphan fact. -/
theorem load_data_left_join_witness :
    load_data [rowA, rowOrphan] [store001]
      = [mkLoaded rowA store001, ⟨rowOrphan, none, none, none, none, none⟩] := by
  rw [(load_data_left_join [rowA, rowOrphan] [store001] (by decide)).1]
  decide

/-! ### Claims C8 and C9 -/

/-- C8: a well-formed store-directory upload (one whose normalized codes
satisfy the primary key) wholesale-replaces the table: whatever the prior
contents, the resulting `stores` table is exactly the uploaded row set with
every StoreCode zero-padded to width 3, so it holds exactly as many rows as
the upload; and `zfill3` pads `"2"` to `"002"`. -/
theorem stores_replace_all (stores rs : List StoreRow)
    (h : ((rs.map normalizeStore).map StoreRow.storeCode).Nodup) :
    stores_upload stores (CsvRead.rows rs) = (rs.map normalizeStore, false)
    ∧ (rs.map normalizeStore).length = rs.length
    ∧ zfill3 "2" = "002" := by
  refine ⟨?_, List.length_map rs normalizeStore, by decide⟩
  show runOps stores [DbOp.deleteAllStores, DbOp.insertStores (rs.map normalizeStore)] = _
  rw [runOps, applyOp]
  simp only [if_neg (Bool.false_ne_true)]
  rw [runOps, applyOp, List.nil_append, if_pos h]
  simp [runOps]

/-- Witness instantiating C8: uploading one row over a non-empty table
leaves exactly the normalized uploaded row. -/
theorem stores_replace_all_witness :
    stores_upload [store001] (CsvRead.rows [rawStore2])
        = ([normalizeStore rawStore2], false)
    ∧ ([rawStore2].map normalizeStore).length = 1
    ∧ zfill3 "2" = "002" :=
  stores_replace_all [store001] [rawStore2] (by decide)

/-- C9 counterexample: an upload the insert step rejects (two rows sharing
StoreCode "001", a primary-key violation) runs `DELETE FROM stores` first,
so the error leaves the previously non-empty stores table empty — contrary
to the claim that every erroneous upload fails before the destructive
delete. -/
theorem stores_upload_insert_error_cex :
    stores_upload [store001] (CsvRead.rows [dupStoreX, dupStoreY]) = ([], true)
    ∧ ([store001] : List StoreRow) ≠ [] := by
  constructor
  · decide
  · decide

/-- C9 (amended): errors raised while reading or normalizing the CSV
(malformed CSV, missing columns) are raised before any database statement
executes, so the previously stored directory rows are unchanged; but an
error raised by the insert step occurs after the delete-all statement has
committed, leaving the stores table empty. -/
theorem stores_upload_error_before_delete :
    (∀ stores : List StoreRow,
        stores_upload stores CsvRead.failure = (stores, true)
        ∧ stores_upload_ops CsvRead.failure = [])
    ∧ ∀ stores rs : List StoreRow,
        ¬ ((rs.map normalizeStore).map StoreRow.storeCode).Nodup →
        stores_upload stores (CsvRead.rows rs) = ([], true) := by
  refine ⟨fun stores => ⟨rfl, rfl⟩, ?_⟩
  intro stores rs h
  show runOps stores [DbOp.deleteAllStores, DbOp.insertStores (rs.map normalizeStore)] = _
  rw [runOps, applyOp]
  simp only [if_neg (Bool.false_ne_true)]
  rw [runOps, applyOp, List.nil_append, if_neg h]
  simp

/-- Witness instantiating the amended C9 on both error classes. -/
theorem stores_upload_error_before_delete_witness :
    (stores_upload [store001] CsvRead.failure = ([store001], true)
      ∧ stores_upload_ops CsvRead.failure = [])
    ∧ stores_upload [store001] (CsvRead.rows [dupStoreX, dupStoreY]) = ([], true) :=
  ⟨stores_upload_error_before_delete.1 [store001],
    stores_upload_error_before_delete.2 [store001] [dupStoreX, dupStoreY] (by decide)⟩

/-! ### Helper lemmas about `compute_top_comp_brands` -/

theorem rankedTotals_sorted (df : List BrandFact) :
    (rankedTotals df).Sorted dollarGE :=
  List.sorted_insertionSort dollarGE _

theorem rankedBrands_nodup (df : List BrandFact) : (rankedBrands df).Nodup := by
  unfold rankedBrands rankedTotals
  have hkeys : (List.insertionSort lexLe ((df.map BrandFact.brand).dedup)).Nodup :=
    (List.perm_insertionSort lexLe _).nodup_iff.mpr (List.nodup_dedup _)
  have hperm : List.Perm
      ((List.insertionSort dollarGE
          ((List.insertionSort lexLe ((df.map BrandFact.brand).dedup)).map
            (fun b => (b, brandTotal df b)))).map Prod.fst)
      (((List.insertionSort lexLe ((df.map BrandFact.brand).dedup)).map
            (fun b => (b, brandTotal df b))).map Prod.fst) :=
    (List.perm_insertionSort dollarGE _).map Prod.fst
  rw [List.map_map] at hperm
  have : ((List.insertionSort lexLe ((df.map BrandFact.brand).dedup)).map
      (Prod.fst ∘ fun b => (b, brandTotal df b))) =
      List.insertionSort lexLe ((df.map BrandFact.brand).dedup) := List.map_id' _
  rw [this] at hperm
  exact hperm.nodup_iff.mpr hkeys

theorem rankedTotals_snd (df : List BrandFact) :
    ∀ p ∈ rankedTotals df, p.2 = brandTotal df p.1 := by
  intro p hp
  unfold rankedTotals at hp
  rw [List.mem_insertionSort] at hp
  obtain ⟨b, _, rfl⟩ := List.mem_map.mp hp
  rfl

theorem pumpMatches_sublist (df : List BrandFact) (target : PyStr) :
    List.Sublist (pumpMatches df target) (rankedBrands df) :=
  List.filter_sublist _

theorem rankedBrands_pairwise_total (df : List BrandFact) :
    (rankedBrands df).Pairwise (fun a b => brandTotal df a ≥ brandTotal df b) := by
  have hs : (rankedTotals df).Pairwise dollarGE := rankedTotals_sorted df
  have hs2 : (rankedTotals df).Pairwise
      (fun x y => brandTotal df x.1 ≥ brandTotal df y.1) := by
    refine hs.imp_of_mem ?_
    intro x y hx hy hr
    rw [← rankedTotals_snd df x hx, ← rankedTotals_snd df y hy]
    exact hr
  unfold rankedBrands
  exact List.pairwise_map.mpr hs2

theorem compute_eq_of_match {df : List BrandFact} {target : PyStr} {f : PyStr}
    {tl : List PyStr} (h : pumpMatches df target = f :: tl) :
    compute_top_comp_brands df target
      = f :: ((rankedBrands df).filter (fun b => decide (b ∉ [f]))).take 5 := by
  unfold compute_top_comp_brands
  rw [h]
  simp

theorem compute_head_match (df : List BrandFact) (target : PyStr)
    (h : pumpMatches df target ≠ []) :
    (compute_top_comp_brands df target).head? = (pumpMatches df target).head? := by
  obtain ⟨f, tl, hft⟩ : ∃ f tl, pumpMatches df target = f :: tl := by
    cases hpm : pumpMatches df target with
    | nil => exact absurd hpm h
    | cons f tl => exact ⟨f, tl, rfl⟩
  rw [compute_eq_of_match hft, hft]
  rfl

theorem compute_head_nomatch (df : List BrandFact) (target : PyStr)
    (h : pumpMatches df target = []) :
    (compute_top_comp_brands df target).head? = (rankedBrands df).head? := by
  unfold compute_top_comp_brands
  rw [h]
  cases hb : rankedBrands df with
  | nil => simp
  | cons b bs => simp

theorem compute_length_le (df : List BrandFact) (target : PyStr) :
    (compute_top_comp_brands df target).length ≤ 6 := by
  unfold compute_top_comp_brands
  rw [List.length_append]
  have h1 : (if (pumpMatches df target).isEmpty then (rankedBrands df).take 1
      else (pumpMatches df target).take 1).length ≤ 1 := by
    split_ifs <;> exact List.length_take_le 1 _
  have h2 : (((rankedBrands df).filter (fun b => decide
      (b ∉ if (pumpMatches df target).isEmpty then (rankedBrands df).take 1
        else (pumpMatches df target).take 1))).take 5).length ≤ 5 :=
    List.length_take_le 5 _
  omega

theorem compute_nodup (df : List BrandFact) (target : PyStr) :
    (compute_top_comp_brands df target).Nodup := by
  have hb : (rankedBrands df).Nodup := rankedBrands_nodup df
  unfold compute_top_comp_brands
  have hpump_sub : List.Sublist
      (if (pumpMatches df target).isEmpty then (rankedBrands df).take 1
        else (pumpMatches df target).take 1) (rankedBrands df) := by
    split_ifs
    · exact List.take_sublist 1 _
    · exact (List.take_sublist 1 _).trans (pumpMatches_sublist df target)
  refine List.Nodup.append (hb.sublist hpump_sub)
    (hb.sublist ((List.take_sublist 5 _).trans (List.filter_sublist _))) ?_
  intro a ha hao
  have h1 : a ∈ (rankedBrands df).filter (fun b => decide
      (b ∉ if (pumpMatches df target).isEmpty then (rankedBrands df).take 1
        else (pumpMatches df target).take 1)) := List.take_subset 5 _ hao
  have h2 := (List.mem_filter.mp h1).2
  rw [decide_eq_true_eq] at h2
  exact h2 ha

unseal Rat.mul Rat.add Rat.sub Rat.inv Rat.ofScientific in
/-- C5: `compute_top_comp_brands` returns at most 6 distinct brand names:
the brand totals are ranked in descending `Dollars` order; the first
matching brand (case-insensitive substring) is forced first, falling back
to the single top-ranked brand when no name matches; the rest is the next
five distinct ranked brands excluding the forced one. On the spec's example
{A: $100, PumpHouse: $50, B: $30, C: $10} with target "pumphouse" the
result is [PumpHouse, A, B, C]. -/
theorem compute_top_comp_brands_spec :
    (∀ (df : List BrandFact) (target : PyStr),
      (rankedTotals df).Sorted dollarGE
      ∧ (compute_top_comp_brands df target).length ≤ 6
      ∧ (compute_top_comp_brands df target).Nodup
      ∧ (pumpMatches df target ≠ [] →
          (compute_top_comp_brands df target).head? = (pumpMatches df target).head?)
      ∧ (pumpMatches df target = [] →
          (compute_top_comp_brands df target).head? = (rankedBrands df).head?)
      ∧ ∃ forced, compute_top_comp_brands df target
            = forced ++ ((rankedBrands df).filter (fun b => decide (b ∉ forced))).take 5
          ∧ forced = (if (pumpMatches df target).isEmpty
              then (rankedBrands df).take 1 else (pumpMatches df target).take 1))
    ∧ compute_top_comp_brands brandExample (pyStrOf "pumphouse")
        = [pyStrOf "PumpHouse", pyStrOf "A", pyStrOf "B", pyStrOf "C"] := by
  refine ⟨fun df target => ⟨rankedTotals_sorted df, compute_length_le df target,
    compute_nodup df target, compute_head_match df target, compute_head_nomatch df target,
    ⟨_, rfl, rfl⟩⟩, by decide⟩

unseal Rat.mul Rat.add Rat.sub Rat.inv Rat.ofScientific in
/-- Witness instantiating C5's conditional parts on the spec's example,
where the matching brand PumpHouse is ranked second by dollars. -/
theorem compute_top_comp_brands_spec_witness :
    (compute_top_comp_brands brandExample (pyStrOf "pumphouse")).head?
      = (pumpMatches brandExample (pyStrOf "pumphouse")).head? :=
  (compute_top_comp_brands_spec.1 brandExample (pyStrOf "pumphouse")).2.2.2.1
    (by decide)

unseal Rat.mul Rat.add Rat.sub Rat.inv Rat.ofScientific in
/-- C10: when one or more brand names contain the target, only the matching
brand appearing first in rank order (the matching brand with the highest
total `Dollars`) is forced to the front; the remaining slots are the next
five ranked brands excluding the forced one only, so other matching brands
are not excluded and may occupy the following slots — as in the concrete
run where "Pump House B" lands in slot 2. -/
theorem compute_top_comp_brands_multi_match :
    (∀ (df : List BrandFact) (target : PyStr) (f : PyStr),
        (pumpMatches df target).head? = some f →
        compute_top_comp_brands df target
            = f :: ((rankedBrands df).filter (fun b => decide (b ≠ f))).take 5
        ∧ ∀ b ∈ pumpMatches df target, brandTotal df f ≥ brandTotal df b)
    ∧ compute_top_comp_brands brandExample2 (pyStrOf "pump house")
        = [pyStrOf "Pump House A", pyStrOf "Pump House B", pyStrOf "X"] := by
  constructor
  · intro df target f hf
    obtain ⟨tl, hft⟩ : ∃ tl, pumpMatches df target = f :: tl := by
      cases hpm : pumpMatches df target with
      | nil => rw [hpm] at hf; exact absurd hf (by simp)
      | cons g tl =>
        rw [hpm] at hf
        exact ⟨tl, by rw [List.head?_cons] at hf; rw [Option.some_inj] at hf; rw [hf]⟩
    constructor
    · rw [compute_eq_of_match hft]
      refine congrArg (fun l : List PyStr => f :: l.take 5) ?_
      refine List.filter_congr ?_
      intro b _
      simp
    · have hpw : (pumpMatches df target).Pairwise
          (fun a b => brandTotal df a ≥ brandTotal df b) :=
        (rankedBrands_pairwise_total df).sublist (pumpMatches_sublist df target)
      rw [hft] at hpw
      rw [List.pairwise_cons] at hpw
      intro b hb
      rw [hft] at hb
      rcases List.mem_cons.mp hb with hbf | hbtl
      · rw [hbf]
      · exact hpw.1 b hbtl
  · decide

unseal Rat.mul Rat.add Rat.sub Rat.inv Rat.ofScientific in
/-- Witness instantiating C10 where two brand names match the target. -/
theorem compute_top_comp_brands_multi_match_witness :
    compute_top_comp_brands brandExample2 (pyStrOf "pump house")
        = pyStrOf "Pump House A"
          :: ((rankedBrands brandExample2).filter
                (fun b => decide (b ≠ pyStrOf "Pump House A"))).take 5
    ∧ brandTotal brandExample2 (pyStrOf "Pump House A")
        ≥ brandTotal brandExample2 (pyStrOf "Pump House B") := by
  have T := compute_top_comp_brands_multi_match.1 brandExample2 (pyStrOf "pump house")
    (pyStrOf "Pump House A") (by decide)
  exact ⟨T.1, T.2 (pyStrOf "Pump House B") (by decide)⟩

/-! ### Helper lemmas about `parse_supplier_report` -/

theorem digit_not_ws {c : Char} (h : c.isDigit = true) : c.isWhitespace = false := by
  by_contra hw
  rw [Bool.not_eq_false] at hw
  simp only [Char.isWhitespace, Bool.or_eq_true, decide_eq_true_eq] at hw
  rcases hw with ((hc | hc) | hc) | hc <;> (rw [hc] at h; exact absurd h (by decide))

theorem takeWhile_append_all {p : Char → Bool} (l₁ : List Char) :
    ∀ l₂ : List Char, (∀ x ∈ l₁, p x = true) →
      (∀ y t, l₂ = y :: t → p y = false) →
      (l₁ ++ l₂).takeWhile p = l₁ := by
  induction l₁ with
  | nil =>
    intro l₂ _ h2
    cases hl : l₂ with
    | nil => rfl
    | cons y t => simp [List.takeWhile_cons, h2 y t hl]
  | cons a l ih =>
    intro l₂ h1 h2
    rw [List.cons_append, List.takeWhile_cons, h1 a (List.mem_cons_self a l)]
    rw [ih l₂ (fun x hx => h1 x (List.mem_cons_of_mem a hx)) h2]
    simp

theorem soldColMatch_spec {c : PyStr} (h : soldColMatch c = true) :
    (c.take 3).length = 3 ∧ (∀ x ∈ c.take 3, x.isDigit = true)
    ∧ (c.drop 3).takeWhile Char.isWhitespace ≠ []
    ∧ (c.drop 3).dropWhile Char.isWhitespace = pyStrOf "Qty Sold" := by
  unfold soldColMatch at h
  simp only [Bool.and_eq_true, beq_iff_eq, Bool.not_eq_true', List.all_eq_true] at h
  obtain ⟨⟨⟨h1, h2⟩, h3⟩, h4⟩ := h
  refine ⟨h1, h2, ?_, h4⟩
  intro hnil
  rw [← List.isEmpty_iff] at hnil
  rw [h3] at hnil
  exact Bool.false_ne_true hnil

theorem soldColMatch_firstToken {c : PyStr} (h : soldColMatch c = true) :
    firstToken c = c.take 3 := by
  obtain ⟨hlen, hdig, hws, _⟩ := soldColMatch_spec h
  have hdw : c.dropWhile Char.isWhitespace = c := by
    cases hc : c with
    | nil => rfl
    | cons a t =>
      have ha : a ∈ c.take 3 := by
        rw [hc]
        rw [show (3 : Nat) = 2 + 1 from rfl, List.take_succ_cons]
        exact List.mem_cons_self a _
      have hwa : a.isWhitespace = false := digit_not_ws (hdig a ha)
      rw [List.dropWhile_cons, hwa]
      simp
  unfold firstToken
  rw [hdw]
  conv_lhs => rw [← List.take_append_drop 3 c]
  refine takeWhile_append_all _ _ ?_ ?_
  · intro x hx
    rw [digit_not_ws (hdig x hx)]
    rfl
  · intro y t hyt
    by_cases hwy : y.isWhitespace = true
    · rw [hwy]; rfl
    · exfalso
      refine hws ?_
      rw [hyt, List.takeWhile_cons]
      rw [Bool.not_eq_true] at hwy
      rw [hwy]
      simp

theorem exactSoldCol_spec {e : PyStr} (h : exactSoldCol e = true) :
    (e.take 3).length = 3 ∧ (∀ x ∈ e.take 3, x.isDigit = true)
    ∧ e.drop 3 = pyStrOf " Qty Sold"
    ∧ e = e.take 3 ++ pyStrOf " Qty Sold" := by
  unfold exactSoldCol at h
  simp only [Bool.and_eq_true, beq_iff_eq, List.all_eq_true] at h
  obtain ⟨⟨h1, h2⟩, h3⟩ := h
  refine ⟨h1, h2, h3, ?_⟩
  conv_lhs => rw [← List.take_append_drop 3 e]
  rw [h3]

theorem exact_take_drop {x : PyStr} (hx : x.length = 3) :
    (x ++ pyStrOf " Qty Sold").take 3 = x
    ∧ (x ++ pyStrOf " Qty Sold").drop 3 = pyStrOf " Qty Sold" := by
  constructor
  · rw [← hx, List.take_left]
  · rw [← hx, List.drop_left]

theorem exactSoldCol_soldColMatch {e : PyStr} (h : exactSoldCol e = true) :
    soldColMatch e = true := by
  obtain ⟨h1, h2, h3, _⟩ := exactSoldCol_spec h
  unfold soldColMatch
  rw [h3]
  simp only [Bool.and_eq_true, beq_iff_eq, List.all_eq_true]
  exact ⟨⟨⟨h1, h2⟩, by decide⟩, by decide⟩

theorem if_isEmpty_flatten {α : Type} (L : List (List α)) :
    (if L.isEmpty then ([] : List α) else L.flatten) = L.flatten := by
  cases L <;> rfl

theorem parse_eq_flatten (w : Workbook) :
    parse_supplier_report w = ((inclCodes w).map (storeFrame w)).flatten := by
  simp only [parse_supplier_report]
  rw [if_isEmpty_flatten]
  rfl

theorem storeCodes_nodup (w : Workbook) : (storeCodes w).Nodup :=
  (List.perm_insertionSort lexLe _).nodup_iff.mpr (List.nodup_dedup _)

theorem mem_storeCodes {w : Workbook} {x : PyStr} :
    x ∈ storeCodes w ↔ ∃ c ∈ w.columns, soldColMatch c = true ∧ firstToken c = x := by
  unfold storeCodes soldCols
  rw [List.mem_insertionSort, List.mem_dedup, List.mem_map]
  constructor
  · rintro ⟨c, hc, rfl⟩
    have hm := List.mem_filter.mp hc
    exact ⟨c, hm.1, hm.2, rfl⟩
  · rintro ⟨c, hc, hm, rfl⟩
    exact ⟨c, List.mem_filter.mpr ⟨hc, hm⟩, rfl⟩

theorem mem_inclCodes {w : Workbook} {x : PyStr} :
    x ∈ inclCodes w ↔ x ∈ exactCodes w.columns := by
  unfold inclCodes exactCodes
  rw [List.mem_filter, List.mem_dedup, List.mem_map]
  constructor
  · rintro ⟨hsc, hpres⟩
    rw [decide_eq_true_eq] at hpres
    obtain ⟨c, _, hm, hft⟩ := mem_storeCodes.mp hsc
    obtain ⟨hlen, hdig, _, _⟩ := soldColMatch_spec hm
    have hxc : x = c.take 3 := by rw [← hft, soldColMatch_firstToken hm]
    have hx3 : x.length = 3 := by rw [hxc]; exact hlen
    obtain ⟨ht, hd⟩ := exact_take_drop hx3
    refine ⟨x ++ pyStrOf " Qty Sold", List.mem_filter.mpr ⟨hpres, ?_⟩, ht⟩
    unfold exactSoldCol
    rw [ht, hd]
    simp only [Bool.and_eq_true, beq_iff_eq, List.all_eq_true]
    refine ⟨⟨hx3, ?_⟩, trivial⟩
    intro y hy
    rw [hxc] at hy
    exact hdig y hy
  · rintro ⟨e, he, hx⟩
    have hee := (List.mem_filter.mp he).2
    have hec := (List.mem_filter.mp he).1
    obtain ⟨_, _, _, hsplit⟩ := exactSoldCol_spec hee
    have hsm := exactSoldCol_soldColMatch hee
    have hxe : x ++ pyStrOf " Qty Sold" = e := by rw [← hx, ← hsplit]
    constructor
    · exact mem_storeCodes.mpr ⟨e, hec, hsm, by rw [soldColMatch_firstToken hsm, hx]⟩
    · rw [decide_eq_true_eq, hxe]
      exact hec

theorem inclCodes_nodup (w : Workbook) : (inclCodes w).Nodup :=
  (storeCodes_nodup w).filter _

theorem exactCodes_nodup (cols : List PyStr) : (exactCodes cols).Nodup :=
  List.nodup_dedup _

theorem inclCodes_length (w : Workbook) :
    (inclCodes w).length = (exactCodes w.columns).length := by
  rw [← List.toFinset_card_of_nodup (inclCodes_nodup w),
    ← List.toFinset_card_of_nodup (exactCodes_nodup w.columns)]
  congr 1
  ext x
  rw [List.mem_toFinset, List.mem_toFinset]
  exact mem_inclCodes

theorem flatten_length_const {α β : Type} (g : α → List β) (M : Nat) :
    ∀ L : List α, (∀ x ∈ L, (g x).length = M) →
      ((L.map g).flatten).length = L.length * M := by
  intro L
  induction L with
  | nil => intro _; simp
  | cons a t ih =>
    intro h
    rw [List.map_cons, List.flatten_cons, List.length_append,
      ih (fun x hx => h x (List.mem_cons_of_mem a hx)), h a (List.mem_cons_self a t),
      List.length_cons]
    ring

theorem storeFrame_length (w : Workbook) (sc : PyStr) :
    (storeFrame w sc).length = w.core.length := by
  unfold storeFrame
  rw [List.length_map, List.enum_length]

/-! ### Claim C3 -/

/-- C3: `parse_supplier_report` emits exactly `N * M` fact rows, where `N`
is the number of distinct 3-digit store codes owning a `"<code> Qty Sold"`
column and `M` is the number of core data rows; a workbook with no column
matching the store-quantity pattern yields the empty result rather than an
error; and every emitted row is one copy of a core row stamped with a
detected store code and that store's quantity cell (blank defaulting to 0,
as `mkFact` does). -/
theorem parse_supplier_report_spec (w : Workbook) :
    (parse_supplier_report w).length = (exactCodes w.columns).length * w.core.length
    ∧ (w.columns.filter soldColMatch = [] → parse_supplier_report w = [])
    ∧ ∀ f ∈ parse_supplier_report w, ∃ sc,
        (sc ++ pyStrOf " Qty Sold") ∈ w.columns
        ∧ sc.length = 3 ∧ (∀ x ∈ sc, x.isDigit = true)
        ∧ ∃ p ∈ w.core.enum, f = mkFact w sc p.1 p.2 := by
  refine ⟨?_, ?_, ?_⟩
  · rw [parse_eq_flatten,
      flatten_length_const (storeFrame w) w.core.length (inclCodes w)
        (fun sc _ => storeFrame_length w sc), inclCodes_length]
  · intro h
    rw [parse_eq_flatten]
    have hempty : inclCodes w = [] := by
      unfold inclCodes storeCodes soldCols
      rw [h]
      rfl
    rw [hempty]
    rfl
  · intro f hf
    rw [parse_eq_flatten, List.mem_flatten] at hf
    obtain ⟨l, hl, hfl⟩ := hf
    obtain ⟨sc, hsc, rfl⟩ := List.mem_map.mp hl
    obtain ⟨p, hp, rfl⟩ := List.mem_map.mp hfl
    have hpres : (sc ++ pyStrOf " Qty Sold") ∈ w.columns := by
      have h2 := (List.mem_filter.mp hsc).2
      rwa [decide_eq_true_eq] at h2
    obtain ⟨e, he, hx⟩ : ∃ e ∈ w.columns.filter exactSoldCol, e.take 3 = sc := by
      have := mem_inclCodes.mp hsc
      unfold exactCodes at this
      rw [List.mem_dedup, List.mem_map] at this
      exact this
    obtain ⟨hlen, hdig, _, _⟩ := exactSoldCol_spec (List.mem_filter.mp he).2
    exact ⟨sc, hpres, by rw [← hx]; exact hlen,
      fun x hxm => hdig x (by rw [hx]; exact hxm), p, hp, rfl⟩

/-- Witness instantiating C3: the two-store two-row workbook yields 2 × 2
rows, the pattern-free workbook yields the empty table, and the first
emitted row arises from a detected store code and core row. -/
theorem parse_supplier_report_spec_witness :
    (parse_supplier_report exampleWorkbook).length = 2 * 2
    ∧ parse_supplier_report noStoreWorkbook = []
    ∧ ∃ sc, (sc ++ pyStrOf " Qty Sold") ∈ exampleWorkbook.columns
        ∧ sc.length = 3 ∧ (∀ x ∈ sc, x.isDigit = true)
        ∧ ∃ p ∈ exampleWorkbook.core.enum,
            mkFact exampleWorkbook (pyStrOf "002") 0 coreRow1
              = mkFact exampleWorkbook sc p.1 p.2 := by
  refine ⟨?_, ?_, ?_⟩
  · rw [(parse_supplier_report_spec exampleWorkbook).1]
    decide
  · exact (parse_supplier_report_spec noStoreWorkbook).2.1 (by decide)
  · exact (parse_supplier_report_spec exampleWorkbook).2.2
      (mkFact exampleWorkbook (pyStrOf "002") 0 coreRow1) (by decide)
